import Mathlib

/-
Verification of the container resource manager (CRM) core,
src/backend/booster/server/pkg/resource/crm/manager.go.

The Go code is shallowly embedded: the manager's mutable state (the
in-memory registered-resource map and the MySQL-backed resource table) is
threaded explicitly, Go ints are modelled as Int, and every external call
(operator RPCs, pool acquisition, database writes) is driven by an oracle
argument recording its outcome.  Each operation returns the new state, the
list of externally observable calls it made (as Event values, in call
order) and its result.  The scheduled background compensations
(go releaseNoReadyInstance(...)) appear as Event.releaseNoReady entries.
-/

namespace Crm

/-- Status of a registered resource (resourceStatus constants in manager.go). -/
inductive ResourceStatus
  | init
  | deploying
  | running
  | released
  | deleting
deriving DecidableEq, Repr

/-- Request parameters of a resource (ResourceParam in manager.go); env, ports
and volumes are carried as association lists, initTime is not modelled (it is
wall-clock time, never read by the logic verified here). -/
structure ResourceParam where
  city : String
  platform : String
  env : List (String × String)
  ports : List (String × String)
  volumes : List (String × String)
  image : String
  brokerName : String
deriving DecidableEq, Repr

/-- One row of resource bookkeeping (struct resource in manager.go, without the
initTime wall-clock field). -/
structure Resource where
  resourceID : String
  user : String
  param : ResourceParam
  resourceBlockKey : String
  noReadyInstance : Int
  requestInstance : Int
  status : ResourceStatus
  brokerResourceID : String
  brokerName : String
  brokerSold : Bool
deriving DecidableEq, Repr

/-- Errors surfaced by the manager (errors.go of the crm package; the exact
message strings are irrelevant, only identity is used by the code). -/
inductive CrmError
  | managerNotRunning
  | resourceAlreadyInit
  | resourceNoExist
  | applicationAlreadyLaunched
  | resourceNotRunning
  | resourceAlreadyReleased
  | noEnoughResources
  | brokerNotEnoughResources
  | storeError
  | operatorError
deriving DecidableEq, Repr

/-- Externally observable calls an operation makes, in call order.
poolAcquire is nodeInfoPool.GetFreeInstances with its attribute condition;
opLaunch / opScale / opRelease / opGetStatus are the operator RPCs;
releaseNoReady is a scheduled go releaseNoReadyInstance(key, n) compensation;
save is a database write attempt (CreateResource or PutResource). -/
inductive Event
  | poolAcquire (condition : List (String × String))
  | opLaunch (name ns : String) (condition : List (String × String)) (inst : Int)
  | opScale (ns name : String) (target : Int)
  | opRelease (ns name : String)
  | opGetStatus (ns name : String)
  | releaseNoReady (key : String) (n : Int)
  | save (r : Resource)
deriving DecidableEq, Repr

/-- The manager state the claims are about: the running flag toggled by the
role loop, the in-memory registeredResourceMap and the MySQL resource table. -/
structure RMState where
  running : Bool
  registered : String → Option Resource
  store : String → Option Resource

/-- Result of one operation: new state, observable calls, returned value. -/
structure OpResult (α : Type) where
  state : RMState
  events : List Event
  result : Except CrmError α

/-- Pointwise map update. -/
def mapSet (m : String → Option Resource) (k : String) (v : Option Resource) :
    String → Option Resource :=
  fun id => if id = k then v else m id

/-- Attribute key used for the city label in pool conditions.
Modelled from the spec: op.AttributeKeyCity lives in the operator package,
which is not under src/; only its identity matters here. -/
def attributeKeyCity : String := "City"

/-- Attribute key used for the platform label in pool conditions.
Modelled from the spec: op.AttributeKeyPlatform lives in the operator
package, which is not under src/; only its identity matters here. -/
def attributeKeyPlatform : String := "Platform"

/-- saveResources (manager.go:624): insert the row into the in-memory map,
evict it again when its status is released, then write it to MySQL.  The map
mutation happens regardless of the database outcome, exactly as in the Go
code; dbOk is the oracle for mysql.PutResource. -/
def saveResources (s : RMState) (r : Resource) (dbOk : Bool) : OpResult Unit :=
  let reg1 := mapSet s.registered r.resourceID (some r)
  let reg2 := if r.status = ResourceStatus.released
    then mapSet reg1 r.resourceID none
    else reg1
  if dbOk then
    ⟨{ s with registered := reg2, store := mapSet s.store r.resourceID (some r) },
      [Event.save r], Except.ok ()⟩
  else
    ⟨{ s with registered := reg2 }, [Event.save r], Except.error CrmError.storeError⟩

/-- createResources (manager.go:620): mysql.CreateResource, a pure database
write; the in-memory map is not touched here. -/
def createResources (s : RMState) (r : Resource) (dbOk : Bool) : OpResult Unit :=
  if dbOk then
    ⟨{ s with store := mapSet s.store r.resourceID (some r) }, [Event.save r], Except.ok ()⟩
  else
    ⟨s, [Event.save r], Except.error CrmError.storeError⟩

/-- getResources (manager.go:636): look the row up in the in-memory map and
return a value copy (copyResource); absence is ErrorResourceNoExist. -/
def getResources (s : RMState) (resourceID : String) : Except CrmError Resource :=
  match s.registered resourceID with
  | some r => Except.ok r
  | none => Except.error CrmError.resourceNoExist

/-- freshDeployingStatus (manager.go:469): reconcile noReadyInstance with the
observed ready count.  On terminated, release all remaining noReadyInstance
and zero it, advancing deploying to running; otherwise shrink noReadyInstance
to requestInstance - ready when that is a smaller non-negative value,
releasing the difference.  The save failure is logged and swallowed. -/
def freshDeployingStatus (s : RMState) (resourceID : String) (ready : Int)
    (terminated : Bool) (dbOk : Bool) : OpResult Unit :=
  match s.registered resourceID with
  | none => ⟨s, [], Except.ok ()⟩
  | some r0 =>
    let step : Resource × List Event :=
      if terminated then
        ({ r0 with noReadyInstance := 0 },
          [Event.releaseNoReady r0.resourceBlockKey r0.noReadyInstance])
      else
        let currentNoReady := r0.requestInstance - ready
        if r0.noReadyInstance > currentNoReady ∧ 0 ≤ currentNoReady then
          ({ r0 with noReadyInstance := currentNoReady },
            [Event.releaseNoReady r0.resourceBlockKey (r0.noReadyInstance - currentNoReady)])
        else (r0, [])
    let r1 := step.1
    let r2 := if terminated ∧ r1.status = ResourceStatus.deploying
      then { r1 with status := ResourceStatus.running }
      else r1
    let sv := saveResources s r2 dbOk
    ⟨sv.state, step.2 ++ sv.events, Except.ok ()⟩

/-- init (manager.go:571): gated on running, fails on an existing row,
otherwise creates and registers a fresh row with status init. -/
def init (s : RMState) (resourceID user : String) (param : ResourceParam)
    (dbOk : Bool) : OpResult Unit :=
  if !s.running then ⟨s, [], Except.error CrmError.managerNotRunning⟩ else
  match s.registered resourceID with
  | some _ => ⟨s, [], Except.error CrmError.resourceAlreadyInit⟩
  | none =>
    let r : Resource :=
      { resourceID := resourceID
        user := user
        param := param
        resourceBlockKey := ""
        noReadyInstance := 0
        requestInstance := 0
        status := ResourceStatus.init
        brokerResourceID := ""
        brokerName := param.brokerName
        brokerSold := false }
    let cr := createResources s r dbOk
    match cr.result with
    | Except.error e => ⟨cr.state, cr.events, Except.error e⟩
    | Except.ok _ =>
      ⟨{ cr.state with registered := mapSet cr.state.registered resourceID (some r) },
        cr.events, Except.ok ()⟩

/-- Oracle for one launch call: outcome of brokerSet.Apply (some brokerID on
success), of nodeInfoPool.GetFreeInstances, of operator.LaunchServer and of
the database write. -/
structure LaunchOracle where
  brokerApply : Option String
  freeInstances : Except CrmError (Int × String)
  launchOk : Bool
  dbOk : Bool

/-- launch (manager.go:734): gated on running; requires status init; optional
broker takeover; on the non-broker path reserves instances from the pool under
the city and platform condition, launches the server, and compensates the
reservation with releaseNoReadyInstance on operator or save failure.
confDCMac models conf.Operator == config.CRMOperatorDCMac. -/
def launch (s : RMState) (resourceID user city : String) (useBroker : Bool)
    (confDCMac : Bool) (o : LaunchOracle) : OpResult Unit :=
  if !s.running then ⟨s, [], Except.error CrmError.managerNotRunning⟩ else
  match s.registered resourceID with
  | none => ⟨s, [], Except.error CrmError.resourceNoExist⟩
  | some r0 =>
    if r0.status ≠ ResourceStatus.init then
      ⟨s, [], Except.error CrmError.applicationAlreadyLaunched⟩
    else
    let r1 := if city ≠ "" then { r0 with param := { r0.param with city := city } } else r0
    let applied := if useBroker then o.brokerApply else none
    match applied with
    | some bid =>
      let r2 := { r1 with brokerResourceID := bid, status := ResourceStatus.deploying }
      let sv := saveResources s r2 o.dbOk
      match sv.result with
      | Except.error e =>
        ⟨sv.state,
          sv.events ++ [Event.releaseNoReady r2.resourceBlockKey r2.noReadyInstance],
          Except.error e⟩
      | Except.ok _ => ⟨sv.state, sv.events, Except.ok ()⟩
    | none =>
      if useBroker ∧ confDCMac then
        ⟨s, [], Except.error CrmError.brokerNotEnoughResources⟩
      else
      let condition := [(attributeKeyCity, r1.param.city), (attributeKeyPlatform, r1.param.platform)]
      match o.freeInstances with
      | Except.error e => ⟨s, [Event.poolAcquire condition], Except.error e⟩
      | Except.ok (inst, key) =>
        let r2 := { r1 with noReadyInstance := inst, resourceBlockKey := key }
        if !o.launchOk then
          ⟨s,
            [Event.poolAcquire condition, Event.opLaunch resourceID user condition inst,
              Event.releaseNoReady r2.resourceBlockKey r2.noReadyInstance],
            Except.error CrmError.operatorError⟩
        else
          let r3 := { r2 with requestInstance := inst, status := ResourceStatus.deploying }
          let sv := saveResources s r3 o.dbOk
          match sv.result with
          | Except.error e =>
            ⟨sv.state,
              Event.poolAcquire condition :: Event.opLaunch resourceID user condition inst ::
                sv.events ++ [Event.releaseNoReady r3.resourceBlockKey r3.noReadyInstance],
              Except.error e⟩
          | Except.ok _ =>
            ⟨sv.state,
              Event.poolAcquire condition :: Event.opLaunch resourceID user condition inst ::
                sv.events,
              Except.ok ()⟩

/-- Oracle for one level of scale: outcome of GetFreeInstances, of
operator.ScaleServer and of the database write. -/
structure ScaleOracle where
  freeInstances : Except CrmError (Int × String)
  scaleOk : Bool
  dbOk : Bool

/-- scale (manager.go:850): gated on running; requires status running; for a
broker-backed resource first recurses on the broker resource id, otherwise
reserves deltaInstance from the pool under the city-only condition and calls
ScaleServer with target requestInstance + deltaInstance, compensating with
releaseNoReadyInstance on operator or save failure.  The oracle list carries
one entry per recursion level; the empty list (an unboundedly deep broker
chain, impossible in the finite Go heap) is mapped to a plain error. -/
def scale (s : RMState) (resourceID user : String) : List ScaleOracle → OpResult Unit
  | [] => ⟨s, [], Except.error CrmError.operatorError⟩
  | o :: os =>
    if !s.running then ⟨s, [], Except.error CrmError.managerNotRunning⟩ else
    match s.registered resourceID with
    | none => ⟨s, [], Except.error CrmError.resourceNoExist⟩
    | some r =>
      if r.status ≠ ResourceStatus.running then
        ⟨s, [], Except.error CrmError.resourceNotRunning⟩
      else
      if r.brokerResourceID ≠ "" then
        let inner := scale s r.brokerResourceID user os
        match inner.result with
        | Except.error e => ⟨inner.state, inner.events, Except.error e⟩
        | Except.ok _ =>
          let r2 := { r with status := ResourceStatus.deploying }
          let sv := saveResources inner.state r2 o.dbOk
          match sv.result with
          | Except.error e =>
            ⟨sv.state,
              inner.events ++ sv.events ++
                [Event.releaseNoReady r2.resourceBlockKey r2.noReadyInstance],
              Except.error e⟩
          | Except.ok _ => ⟨sv.state, inner.events ++ sv.events, Except.ok ()⟩
      else
        let condition := [(attributeKeyCity, r.param.city)]
        match o.freeInstances with
        | Except.error e => ⟨s, [Event.poolAcquire condition], Except.error e⟩
        | Except.ok (delta, key) =>
          let r2 := if 0 < delta
            then { r with noReadyInstance := delta, resourceBlockKey := key }
            else r
          let target := r.requestInstance + delta
          if !o.scaleOk then
            ⟨s,
              [Event.poolAcquire condition, Event.opScale user resourceID target,
                Event.releaseNoReady r2.resourceBlockKey r2.noReadyInstance],
              Except.error CrmError.operatorError⟩
          else
            let r3 := { r2 with requestInstance := target, status := ResourceStatus.deploying }
            let sv := saveResources s r3 o.dbOk
            match sv.result with
            | Except.error e =>
              ⟨sv.state,
                Event.poolAcquire condition :: Event.opScale user resourceID target ::
                  sv.events ++ [Event.releaseNoReady r3.resourceBlockKey r3.noReadyInstance],
                Except.error e⟩
            | Except.ok _ =>
              ⟨sv.state,
                Event.poolAcquire condition :: Event.opScale user resourceID target :: sv.events,
                Except.ok ()⟩

/-- Oracle for one level of release: outcome of operator.ReleaseServer and of
the database write. -/
structure ReleaseOracle where
  releaseOk : Bool
  dbOk : Bool

/-- release (manager.go:927): gated on running; fails on an already released
row; releases the broker resource first when broker-backed, otherwise calls
operator.ReleaseServer; then compensates any outstanding noReadyInstance,
marks the row released and persists it (which also evicts it from the map). -/
def release (s : RMState) (resourceID user : String) : List ReleaseOracle → OpResult Unit
  | [] => ⟨s, [], Except.error CrmError.operatorError⟩
  | o :: os =>
    if !s.running then ⟨s, [], Except.error CrmError.managerNotRunning⟩ else
    match s.registered resourceID with
    | none => ⟨s, [], Except.error CrmError.resourceNoExist⟩
    | some r =>
      if r.status = ResourceStatus.released then
        ⟨s, [], Except.error CrmError.resourceAlreadyReleased⟩
      else
      let cont : RMState → List Event → OpResult Unit := fun s1 evs1 =>
        let step : Resource × List Event :=
          if 0 < r.noReadyInstance then
            ({ r with noReadyInstance := 0 },
              [Event.releaseNoReady r.resourceBlockKey r.noReadyInstance])
          else (r, [])
        let r2 := { step.1 with status := ResourceStatus.released }
        let sv := saveResources s1 r2 o.dbOk
        match sv.result with
        | Except.error e => ⟨sv.state, evs1 ++ step.2 ++ sv.events, Except.error e⟩
        | Except.ok _ => ⟨sv.state, evs1 ++ step.2 ++ sv.events, Except.ok ()⟩
      if r.brokerResourceID ≠ "" then
        let inner := release s r.brokerResourceID user os
        match inner.result with
        | Except.error e => ⟨inner.state, inner.events, Except.error e⟩
        | Except.ok _ => cont inner.state inner.events
      else
        if !o.releaseOk then
          ⟨s, [Event.opRelease user resourceID], Except.error CrmError.operatorError⟩
        else
          cont s [Event.opRelease user resourceID]

/-- Operator-side service status (op.ServiceStatus). -/
inductive ServiceStatus
  | staging
  | running
  | failed
deriving DecidableEq, Repr

/-- Operator-side service info (op.ServiceInfo, the fields the core reads). -/
structure ServiceInfo where
  status : ServiceStatus
  currentInstances : Int
deriving DecidableEq, Repr

/-- Oracle for getServiceInfo: outcome of operator.GetServerStatus and of the
database write inside freshDeployingStatus. -/
structure GsiOracle where
  statusResult : Except CrmError ServiceInfo
  dbOk : Bool

/-- getServiceInfo (manager.go:648): gated on running; resolves the real
server name (the broker resource id when present), queries the operator and
feeds the observed ready count into freshDeployingStatus, with terminated set
iff the operator reports running or failed. -/
def getServiceInfo (s : RMState) (resourceID user : String) (o : GsiOracle) :
    OpResult ServiceInfo :=
  if !s.running then ⟨s, [], Except.error CrmError.managerNotRunning⟩ else
  match s.registered resourceID with
  | none => ⟨s, [], Except.error CrmError.resourceNoExist⟩
  | some r =>
    let targetID := if r.brokerResourceID ≠ "" then r.brokerResourceID else resourceID
    match o.statusResult with
    | Except.error e => ⟨s, [Event.opGetStatus user targetID], Except.error e⟩
    | Except.ok info =>
      let terminated : Bool :=
        decide (info.status = ServiceStatus.running ∨ info.status = ServiceStatus.failed)
      let f := freshDeployingStatus s resourceID info.currentInstances terminated o.dbOk
      ⟨f.state, Event.opGetStatus user targetID :: f.events, Except.ok info⟩

/-- isServicePreparing (manager.go:678): gated on running; an unknown resource
is not preparing; otherwise preparing iff status is init or deploying. -/
def isServicePreparing (s : RMState) (resourceID user : String) : OpResult Bool :=
  if !s.running then ⟨s, [], Except.error CrmError.managerNotRunning⟩ else
  match s.registered resourceID with
  | none => ⟨s, [], Except.ok false⟩
  | some r =>
    ⟨s, [],
      Except.ok (decide (r.status = ResourceStatus.init ∨ r.status = ResourceStatus.deploying))⟩

/-- ASCII lowercase of one character, the per-rune behaviour of Go's
strings.ToLower on the ASCII range (the model keeps non-ASCII runes fixed). -/
def lowerChar (c : Char) : Char :=
  if 65 ≤ c.toNat ∧ c.toNat ≤ 90 then Char.ofNat (c.toNat + 32) else c

/-- strings.ToLower, per character. -/
def strToLower (s : String) : String := String.mk (s.data.map lowerChar)

/-- Replace one underscore character by a hyphen. -/
def repChar (c : Char) : Char := if c = '_' then '-' else c

/-- strings.ReplaceAll(s, underscore, hyphen); both patterns are single
characters, so it is a per-character map. -/
def replaceUnderscore (s : String) : String :=
  String.mk (s.data.map repChar)

/-- handlerWithUser.resourceID (manager.go:1131): the id every handler
operation passes down, lowercase of user-id with underscores replaced. -/
def handlerWithUser.resourceID (user id : String) : String :=
  replaceUnderscore (strToLower (user ++ "-" ++ id))

/-- handlerWithUser.Init (manager.go:1071). -/
def handlerWithUser.Init (s : RMState) (user id : String) (param : ResourceParam)
    (dbOk : Bool) : OpResult Unit :=
  init s (handlerWithUser.resourceID user id) user param dbOk

/-- handlerWithUser.Launch (manager.go:1076); useBroker is fixed to true. -/
def handlerWithUser.Launch (s : RMState) (user id city : String) (confDCMac : Bool)
    (o : LaunchOracle) : OpResult Unit :=
  launch s (handlerWithUser.resourceID user id) user city true confDCMac o

/-- handlerWithUser.Scale (manager.go:1081). -/
def handlerWithUser.Scale (s : RMState) (user id : String) (os : List ScaleOracle) :
    OpResult Unit :=
  scale s (handlerWithUser.resourceID user id) user os

/-- handlerWithUser.GetServiceInfo (manager.go:1086). -/
def handlerWithUser.GetServiceInfo (s : RMState) (user id : String) (o : GsiOracle) :
    OpResult ServiceInfo :=
  getServiceInfo s (handlerWithUser.resourceID user id) user o

/-- handlerWithUser.IsServicePreparing (manager.go:1091). -/
def handlerWithUser.IsServicePreparing (s : RMState) (user id : String) : OpResult Bool :=
  isServicePreparing s (handlerWithUser.resourceID user id) user

/-- handlerWithUser.Release (manager.go:1096). -/
def handlerWithUser.Release (s : RMState) (user id : String) (os : List ReleaseOracle) :
    OpResult Unit :=
  release s (handlerWithUser.resourceID user id) user os

/-- Number of channel deliveries of a Go time.NewTimer within the first n
periods of its duration.  Modelled from the Go standard library semantics:
NewTimer fires exactly once and is never reset by the loops in manager.go. -/
def newTimerDeliveries (n : Nat) : Nat := min 1 n

/-- Number of channel deliveries of a Go time.NewTicker within the first n
periods: one per elapsed period. -/
def newTickerDeliveries (n : Nat) : Nat := n

/-- runRscDetailSync (manager.go:322): each delivery of the timer channel
publishes a fresh rscDetail snapshot when the pool is non-nil; the loop uses
time.NewTimer(syncRscDetailTimeGap). -/
def runRscDetailSyncPublishCount (poolPresent : Bool) (n : Nat) : Nat :=
  if poolPresent then newTimerDeliveries n else 0

/-- runAppDetailSync (manager.go:341): each delivery of the timer channel
publishes a fresh appDetail snapshot when the registered map is non-nil; the
loop uses time.NewTimer(syncAppDetailTimeGap). -/
def runAppDetailSyncPublishCount (mapPresent : Bool) (n : Nat) : Nat :=
  if mapPresent then newTimerDeliveries n else 0

/-- The noReadyInstance currently recorded for id, 0 when unregistered. -/
def noReadyOf (s : RMState) (id : String) : Int :=
  match s.registered id with
  | some r => r.noReadyInstance
  | none => 0

/-- The requestInstance currently recorded for id, 0 when unregistered. -/
def reqOf (s : RMState) (id : String) : Int :=
  match s.registered id with
  | some r => r.requestInstance
  | none => 0

/-- A sequence of freshDeployingStatus calls with terminated = false, each
entry giving the observed ready count and the database outcome. -/
def freshSeq (id : String) : RMState → List (Int × Bool) → RMState
  | s, [] => s
  | s, (ready, dbOk) :: rest =>
    freshSeq id (freshDeployingStatus s id ready false dbOk).state rest

/-- Invariant 4 of the spec: a released row is never present in the in-memory
registered map. -/
def NoReleasedRegistered (s : RMState) : Prop :=
  ∀ id r, s.registered id = some r → r.status ≠ ResourceStatus.released

/-- True iff the event is a database write attempt. -/
def isSaveEv : Event → Bool
  | Event.save _ => true
  | _ => false

/-- True iff no database write attempt appears in the list. -/
def noSave (evs : List Event) : Bool := evs.all (fun e => !isSaveEv e)

/-- True iff the result is an error. -/
def isErr {α : Type} : Except CrmError α → Bool
  | Except.error _ => true
  | Except.ok _ => false

theorem saveResources_registered (s : RMState) (r : Resource) (dbOk : Bool) :
    (saveResources s r dbOk).state.registered = fun id =>
      if id = r.resourceID then
        (if r.status = ResourceStatus.released then none else some r)
      else s.registered id := by
  funext id
  by_cases hdb : dbOk <;>
    by_cases hrel : r.status = ResourceStatus.released <;>
      by_cases hid : id = r.resourceID <;>
        simp [saveResources, mapSet, hdb, hrel, hid]

theorem saveResources_store (s : RMState) (r : Resource) (dbOk : Bool) :
    (saveResources s r dbOk).state.store =
      if dbOk then mapSet s.store r.resourceID (some r) else s.store := by
  by_cases hdb : dbOk <;>
    by_cases hrel : r.status = ResourceStatus.released <;>
      simp [saveResources, hdb, hrel]

theorem saveResources_running (s : RMState) (r : Resource) (dbOk : Bool) :
    (saveResources s r dbOk).state.running = s.running := by
  by_cases hdb : dbOk <;>
    by_cases hrel : r.status = ResourceStatus.released <;>
      simp [saveResources, hdb, hrel]

/-- C2: every user-facing operation invoked while the manager is not running
(role is not master) fails fast with ManagerNotRunning, leaving the state
(in-memory map and store) untouched and making no external call at all. -/
theorem user_ops_fail_fast_when_not_running
    (s : RMState) (h : s.running = false)
    (user id city : String) (param : ResourceParam) (dbOk : Bool)
    (confDCMac : Bool) (lo : LaunchOracle)
    (so : ScaleOracle) (sos : List ScaleOracle)
    (ro : ReleaseOracle) (ros : List ReleaseOracle)
    (gso : GsiOracle) :
    handlerWithUser.Init s user id param dbOk =
      ⟨s, [], Except.error CrmError.managerNotRunning⟩ ∧
    handlerWithUser.Launch s user id city confDCMac lo =
      ⟨s, [], Except.error CrmError.managerNotRunning⟩ ∧
    handlerWithUser.Scale s user id (so :: sos) =
      ⟨s, [], Except.error CrmError.managerNotRunning⟩ ∧
    handlerWithUser.Release s user id (ro :: ros) =
      ⟨s, [], Except.error CrmError.managerNotRunning⟩ ∧
    handlerWithUser.GetServiceInfo s user id gso =
      ⟨s, [], Except.error CrmError.managerNotRunning⟩ ∧
    handlerWithUser.IsServicePreparing s user id =
      ⟨s, [], Except.error CrmError.managerNotRunning⟩ := by
  refine ⟨?_, ?_, ?_, ?_, ?_, ?_⟩ <;>
    simp [handlerWithUser.Init, handlerWithUser.Launch, handlerWithUser.Scale,
      handlerWithUser.Release, handlerWithUser.GetServiceInfo,
      handlerWithUser.IsServicePreparing, init, launch, scale, release,
      getServiceInfo, isServicePreparing, h]

/-- Witness for user_ops_fail_fast_when_not_running at a concrete stopped
state and concrete arguments. -/
theorem user_ops_fail_fast_when_not_running_witness :
    (handlerWithUser.IsServicePreparing
        ⟨false, fun _ => none, fun _ => none⟩ "alice" "job1" =
      ⟨⟨false, fun _ => none, fun _ => none⟩, [],
        Except.error CrmError.managerNotRunning⟩) :=
  (user_ops_fail_fast_when_not_running ⟨false, fun _ => none, fun _ => none⟩ rfl
    "alice" "job1" "" ⟨"", "", [], [], [], "", ""⟩ true false
    ⟨none, Except.error CrmError.noEnoughResources, true, true⟩
    ⟨Except.error CrmError.noEnoughResources, true, true⟩ []
    ⟨true, true⟩ []
    ⟨Except.error CrmError.operatorError, true⟩).2.2.2.2.2

/-- C6: with the manager running, Release of a resource whose row is already
in status released fails with ResourceAlreadyReleased and changes nothing. -/
theorem release_already_released
    (s : RMState) (resourceID user : String) (r : Resource)
    (o : ReleaseOracle) (os : List ReleaseOracle)
    (hrun : s.running = true)
    (hreg : s.registered resourceID = some r)
    (hrel : r.status = ResourceStatus.released) :
    release s resourceID user (o :: os) =
      ⟨s, [], Except.error CrmError.resourceAlreadyReleased⟩ := by
  simp [release, hrun, hreg, hrel]

/-- Witness for release_already_released at a one-row state whose row is
already released. -/
theorem release_already_released_witness :
    release
        ⟨true,
          fun id => if id = "a" then some
            ⟨"a", "u", ⟨"", "", [], [], [], "", ""⟩, "", 0, 0,
              ResourceStatus.released, "", "", false⟩ else none,
          fun _ => none⟩
        "a" "u" [⟨true, true⟩] =
      ⟨⟨true,
          fun id => if id = "a" then some
            ⟨"a", "u", ⟨"", "", [], [], [], "", ""⟩, "", 0, 0,
              ResourceStatus.released, "", "", false⟩ else none,
          fun _ => none⟩, [],
        Except.error CrmError.resourceAlreadyReleased⟩ :=
  release_already_released _ "a" "u"
    ⟨"a", "u", ⟨"", "", [], [], [], "", ""⟩, "", 0, 0,
      ResourceStatus.released, "", "", false⟩
    ⟨true, true⟩ [] rfl (by simp) rfl

theorem toNat_ofNat_valid (m : Nat) (h : m.isValidChar) : (Char.ofNat m).toNat = m := by
  simp [Char.ofNat, h, Char.ofNatAux, Char.toNat, UInt32.toNat, BitVec.ofNatLt]

theorem lowerChar_toNat_of_upper (c : Char) (h : 65 ≤ c.toNat ∧ c.toNat ≤ 90) :
    (lowerChar c).toNat = c.toNat + 32 := by
  have hv : (c.toNat + 32).isValidChar := Or.inl (by omega)
  simp only [lowerChar, if_pos h]
  exact toNat_ofNat_valid _ hv

theorem lowerChar_not_upper (c : Char) :
    ¬ (65 ≤ (lowerChar c).toNat ∧ (lowerChar c).toNat ≤ 90) := by
  by_cases h : 65 ≤ c.toNat ∧ c.toNat ≤ 90
  · rw [lowerChar_toNat_of_upper c h]
    omega
  · simp only [lowerChar, if_neg h]
    exact h

theorem lowerChar_eq_self (c : Char) (h : ¬ (65 ≤ c.toNat ∧ c.toNat ≤ 90)) :
    lowerChar c = c := by
  simp [lowerChar, h]

theorem repChar_not_upper (c : Char) (h : ¬ (65 ≤ c.toNat ∧ c.toNat ≤ 90)) :
    ¬ (65 ≤ (repChar c).toNat ∧ (repChar c).toNat ≤ 90) := by
  by_cases hu : c = '_'
  · subst hu
    decide
  · simpa [repChar, hu] using h

theorem repChar_idem (c : Char) : repChar (repChar c) = repChar c := by
  by_cases h : c = '_' <;> simp [repChar, h]

theorem normChar_idem (c : Char) :
    repChar (lowerChar (repChar (lowerChar c))) = repChar (lowerChar c) := by
  have h1 := lowerChar_not_upper c
  have h2 := repChar_not_upper _ h1
  rw [lowerChar_eq_self _ h2, repChar_idem]

theorem norm_idempotent (s : String) :
    replaceUnderscore (strToLower (replaceUnderscore (strToLower s))) =
      replaceUnderscore (strToLower s) := by
  simp only [replaceUnderscore, strToLower, List.map_map]
  refine congrArg String.mk ?_
  induction s.data with
  | nil => rfl
  | cons c cs ih =>
    simp only [List.map_cons, Function.comp_apply, ih, List.cons.injEq, and_true]
    exact normChar_idem c

/-- C5: for every user U and caller-supplied id I, the resource id every
handler operation passes to the manager (and the one persisted by Init)
equals lowercase of U-I with each underscore replaced by a hyphen, and the
lowercase-and-replace normalisation is idempotent under re-application. -/
theorem resource_id_normalisation
    (s : RMState) (user id : String) (param : ResourceParam)
    (hrun : s.running = true)
    (hfresh : s.registered (handlerWithUser.resourceID user id) = none) :
    handlerWithUser.resourceID user id =
      replaceUnderscore (strToLower (user ++ "-" ++ id)) ∧
    replaceUnderscore (strToLower (handlerWithUser.resourceID user id)) =
      handlerWithUser.resourceID user id ∧
    (∃ r', (handlerWithUser.Init s user id param true).state.store
          (handlerWithUser.resourceID user id) = some r' ∧
        (handlerWithUser.Init s user id param true).state.registered
          (handlerWithUser.resourceID user id) = some r' ∧
        r'.resourceID = handlerWithUser.resourceID user id ∧
        (handlerWithUser.Init s user id param true).result = Except.ok ()) ∧
    (∀ city confDCMac lo, handlerWithUser.Launch s user id city confDCMac lo =
      launch s (handlerWithUser.resourceID user id) user city true confDCMac lo) ∧
    (∀ sos, handlerWithUser.Scale s user id sos =
      scale s (handlerWithUser.resourceID user id) user sos) ∧
    (∀ ros, handlerWithUser.Release s user id ros =
      release s (handlerWithUser.resourceID user id) user ros) ∧
    (∀ gso, handlerWithUser.GetServiceInfo s user id gso =
      getServiceInfo s (handlerWithUser.resourceID user id) user gso) ∧
    handlerWithUser.IsServicePreparing s user id =
      isServicePreparing s (handlerWithUser.resourceID user id) user := by
  refine ⟨rfl, norm_idempotent _, ?_, fun _ _ _ => rfl, fun _ => rfl, fun _ => rfl,
    fun _ => rfl, rfl⟩
  refine ⟨{ resourceID := handlerWithUser.resourceID user id
            user := user
            param := param
            resourceBlockKey := ""
            noReadyInstance := 0
            requestInstance := 0
            status := ResourceStatus.init
            brokerResourceID := ""
            brokerName := param.brokerName
            brokerSold := false }, ?_, ?_, rfl, ?_⟩ <;>
    simp [handlerWithUser.Init, init, createResources, mapSet, hrun, hfresh]

/-- Witness for resource_id_normalisation: the persisted id for user Bob and
id Job_1 is bob-job-1 and renormalising it changes nothing. -/
theorem resource_id_normalisation_witness :
    replaceUnderscore (strToLower (handlerWithUser.resourceID "Bob" "Job_1")) =
      handlerWithUser.resourceID "Bob" "Job_1" ∧
    handlerWithUser.resourceID "Bob" "Job_1" = "bob-job-1" :=
  ⟨(resource_id_normalisation ⟨true, fun _ => none, fun _ => none⟩ "Bob" "Job_1"
      ⟨"", "", [], [], [], "", ""⟩ rfl rfl).2.1, by decide⟩

/-- C9: the two detail-sync loops are built on one-shot time.NewTimer values
that are never reset, so within two elapsed periods each loop publishes its
snapshot exactly once instead of once per period as a ticker would. -/
theorem detail_sync_publishes_only_once :
    runRscDetailSyncPublishCount true 2 = 1 ∧
    runAppDetailSyncPublishCount true 2 = 1 ∧
    runRscDetailSyncPublishCount true 2 ≠ newTickerDeliveries 2 ∧
    runAppDetailSyncPublishCount true 2 ≠ newTickerDeliveries 2 := by
  decide

theorem fresh_step_noReady (s : RMState) (id : String) (ready : Int) (dbOk : Bool)
    (h0 : 0 ≤ noReadyOf s id) :
    noReadyOf (freshDeployingStatus s id ready false dbOk).state id ≤ noReadyOf s id ∧
    0 ≤ noReadyOf (freshDeployingStatus s id ready false dbOk).state id := by
  cases hreg : s.registered id with
  | none => simp [freshDeployingStatus, hreg, noReadyOf]
  | some r0 =>
    have h0' : 0 ≤ r0.noReadyInstance := by
      simpa [noReadyOf, hreg] using h0
    have hm : noReadyOf s id = r0.noReadyInstance := by simp [noReadyOf, hreg]
    rw [hm]
    by_cases hg : r0.noReadyInstance > r0.requestInstance - ready ∧ 0 ≤ r0.requestInstance - ready
    · simp only [freshDeployingStatus, hreg, if_pos hg, Bool.false_eq_true, false_and, if_neg,
        not_false_eq_true]
      simp only [noReadyOf, saveResources_registered]
      by_cases hid : id = r0.resourceID <;>
        by_cases hrel : r0.status = ResourceStatus.released <;>
          simp [hid, hrel, hreg, h0'] <;> omega
    · simp only [freshDeployingStatus, hreg, if_neg hg, Bool.false_eq_true, false_and, if_neg,
        not_false_eq_true]
      simp only [noReadyOf, saveResources_registered]
      by_cases hid : id = r0.resourceID <;>
        by_cases hrel : r0.status = ResourceStatus.released <;>
          simp [hid, hrel, hreg, h0'] <;> omega

theorem fresh_seq_noReady (id : String) (l : List (Int × Bool)) :
    ∀ s0 : RMState, 0 ≤ noReadyOf s0 id → noReadyOf (freshSeq id s0 l) id ≤ noReadyOf s0 id := by
  induction l with
  | nil => intro s0 _; simp [freshSeq]
  | cons p rest ih =>
    intro s0 h
    obtain ⟨ready, dbOk⟩ := p
    obtain ⟨h1, h2⟩ := fresh_step_noReady s0 id ready dbOk h
    exact le_trans (ih _ h2) h1


theorem saveResources_events (s : RMState) (r : Resource) (dbOk : Bool) :
    (saveResources s r dbOk).events = [Event.save r] := by
  by_cases hdb : dbOk <;>
    by_cases hrel : r.status = ResourceStatus.released <;>
      simp [saveResources, hdb, hrel]

theorem fresh_false_eq (s : RMState) (id : String) (r0 : Resource) (ready : Int) (dbOk : Bool)
    (hreg : s.registered id = some r0) :
    freshDeployingStatus s id ready false dbOk =
      if r0.noReadyInstance > r0.requestInstance - ready ∧ 0 ≤ r0.requestInstance - ready then
        ⟨(saveResources s { r0 with noReadyInstance := r0.requestInstance - ready } dbOk).state,
          Event.releaseNoReady r0.resourceBlockKey
              (r0.noReadyInstance - (r0.requestInstance - ready)) ::
            (saveResources s { r0 with noReadyInstance := r0.requestInstance - ready } dbOk).events,
          Except.ok ()⟩
      else
        ⟨(saveResources s r0 dbOk).state, (saveResources s r0 dbOk).events, Except.ok ()⟩ := by
  by_cases hg : r0.noReadyInstance > r0.requestInstance - ready ∧ 0 ≤ r0.requestInstance - ready
  · rw [if_pos hg]
    simp only [freshDeployingStatus, hreg, if_pos hg, Bool.false_eq_true, false_and, if_neg,
      not_false_eq_true, List.singleton_append]
  · rw [if_neg hg]
    simp only [freshDeployingStatus, hreg, if_neg hg, Bool.false_eq_true, false_and, if_neg,
      not_false_eq_true, List.nil_append]

theorem fresh_true_eq (s : RMState) (id : String) (r0 : Resource) (ready : Int) (dbOk : Bool)
    (hreg : s.registered id = some r0) :
    freshDeployingStatus s id ready true dbOk =
      ⟨(saveResources s
          { r0 with noReadyInstance := 0,
                    status := if r0.status = ResourceStatus.deploying
                      then ResourceStatus.running else r0.status } dbOk).state,
        Event.releaseNoReady r0.resourceBlockKey r0.noReadyInstance ::
          (saveResources s
            { r0 with noReadyInstance := 0,
                      status := if r0.status = ResourceStatus.deploying
                        then ResourceStatus.running else r0.status } dbOk).events,
        Except.ok ()⟩ := by
  by_cases hd : r0.status = ResourceStatus.deploying
  · simp only [freshDeployingStatus, hreg, if_pos rfl, hd, and_self, if_pos, if_true,
      List.singleton_append]
  · simp only [freshDeployingStatus, hreg, List.singleton_append]
    simp [hd]

/-- C1: a freshDeployingStatus call with terminated false never grows the
row's noReadyInstance: it either leaves the row untouched, or, exactly when
currentNoReady = requestInstance - ready is non-negative and smaller than the
old noReadyInstance, lowers noReadyInstance to currentNoReady and schedules
the difference for release back to the pool; consequently noReadyInstance is
non-increasing across any sequence of such calls with the (preserved)
requestInstance. -/
theorem fresh_deploy_noReady_monotone
    (s : RMState) (id : String) (r : Resource) (ready : Int) (dbOk : Bool)
    (hreg : s.registered id = some r) (hid : r.resourceID = id)
    (hst : r.status ≠ ResourceStatus.released) :
    (∃ r', (freshDeployingStatus s id ready false dbOk).state.registered id = some r' ∧
      r'.requestInstance = r.requestInstance ∧
      r'.status = r.status ∧
      r'.noReadyInstance ≤ r.noReadyInstance ∧
      ((0 ≤ r.requestInstance - ready ∧ r.requestInstance - ready < r.noReadyInstance) →
        (r'.noReadyInstance = r.requestInstance - ready ∧
          Event.releaseNoReady r.resourceBlockKey
              (r.noReadyInstance - (r.requestInstance - ready)) ∈
            (freshDeployingStatus s id ready false dbOk).events)) ∧
      (¬ (0 ≤ r.requestInstance - ready ∧ r.requestInstance - ready < r.noReadyInstance) →
        (r'.noReadyInstance = r.noReadyInstance ∧
          ∀ k n, Event.releaseNoReady k n ∉ (freshDeployingStatus s id ready false dbOk).events))) ∧
    (∀ (l : List (Int × Bool)) (s0 : RMState), 0 ≤ noReadyOf s0 id →
      noReadyOf (freshSeq id s0 l) id ≤ noReadyOf s0 id) := by
  refine ⟨?_, fun l s0 h => fresh_seq_noReady id l s0 h⟩
  rw [fresh_false_eq s id r ready dbOk hreg]
  by_cases hg : r.noReadyInstance > r.requestInstance - ready ∧ 0 ≤ r.requestInstance - ready
  · rw [if_pos hg]
    refine ⟨{ r with noReadyInstance := r.requestInstance - ready }, ?_, rfl, rfl,
      le_of_lt hg.1, ?_, ?_⟩
    · rw [saveResources_registered]
      simp [hid, hst]
    · intro _
      exact ⟨rfl, by simp⟩
    · intro h
      exact absurd ⟨hg.2, hg.1⟩ h
  · rw [if_neg hg]
    refine ⟨r, ?_, rfl, rfl, le_refl _, ?_, ?_⟩
    · rw [saveResources_registered]
      simp [hid, hst]
    · intro h
      exact absurd ⟨h.2, h.1⟩ hg
    · intro _
      refine ⟨rfl, fun k n => ?_⟩
      simp [saveResources_events]

/-- Witness for fresh_deploy_noReady_monotone at a one-row deploying state:
ready 4 of 5 requested lowers noReadyInstance from 3 to 1. -/
theorem fresh_deploy_noReady_monotone_witness :
    (∃ r', (freshDeployingStatus
        ⟨true,
          fun id => if id = "a" then some
            ⟨"a", "u", ⟨"sh", "linux", [], [], [], "img", ""⟩, "k", 3, 5,
              ResourceStatus.deploying, "", "", false⟩ else none,
          fun _ => none⟩
        "a" 4 false true).state.registered "a" = some r' ∧
      r'.requestInstance = 5 ∧ r'.noReadyInstance ≤ 3) := by
  obtain ⟨⟨r', h1, h2, _, h4, _, _⟩, _⟩ := fresh_deploy_noReady_monotone
    ⟨true,
      fun id => if id = "a" then some
        ⟨"a", "u", ⟨"sh", "linux", [], [], [], "img", ""⟩, "k", 3, 5,
          ResourceStatus.deploying, "", "", false⟩ else none,
      fun _ => none⟩
    "a"
    ⟨"a", "u", ⟨"sh", "linux", [], [], [], "img", ""⟩, "k", 3, 5,
      ResourceStatus.deploying, "", "", false⟩
    4 true (by simp) rfl (by simp)
  exact ⟨r', h1, h2, h4⟩

/-- C4: a freshDeployingStatus call with terminated true schedules the release
of the whole remaining noReadyInstance back to the pool, zeroes it, advances
the status to running exactly when it was deploying (all other statuses are
kept), and persists the updated row. -/
theorem fresh_terminated_releases_all
    (s : RMState) (id : String) (r : Resource) (ready : Int)
    (hreg : s.registered id = some r) (hid : r.resourceID = id)
    (hst : r.status ≠ ResourceStatus.released) :
    Event.releaseNoReady r.resourceBlockKey r.noReadyInstance ∈
      (freshDeployingStatus s id ready true true).events ∧
    (freshDeployingStatus s id ready true true).state.registered id =
      some { r with noReadyInstance := 0,
                    status := if r.status = ResourceStatus.deploying
                      then ResourceStatus.running else r.status } ∧
    (freshDeployingStatus s id ready true true).state.store id =
      some { r with noReadyInstance := 0,
                    status := if r.status = ResourceStatus.deploying
                      then ResourceStatus.running else r.status } := by
  rw [fresh_true_eq s id r ready true hreg]
  have hrel : ¬ (if r.status = ResourceStatus.deploying
      then ResourceStatus.running else r.status) = ResourceStatus.released := by
    by_cases hd : r.status = ResourceStatus.deploying <;> simp [hd, hst]
  refine ⟨by simp, ?_, ?_⟩
  · rw [saveResources_registered]
    simp [hid, hrel]
  · rw [saveResources_store]
    simp [mapSet, hid]

/-- Witness for fresh_terminated_releases_all: a deploying row with 2
outstanding instances is advanced to running with all of them released. -/
theorem fresh_terminated_releases_all_witness :
    (freshDeployingStatus
        ⟨true,
          fun id => if id = "a" then some
            ⟨"a", "u", ⟨"sh", "linux", [], [], [], "img", ""⟩, "k", 2, 5,
              ResourceStatus.deploying, "", "", false⟩ else none,
          fun _ => none⟩
        "a" 5 true true).state.registered "a" =
      some ⟨"a", "u", ⟨"sh", "linux", [], [], [], "img", ""⟩, "k", 0, 5,
        ResourceStatus.running, "", "", false⟩ := by
  have h := (fresh_terminated_releases_all
    ⟨true,
      fun id => if id = "a" then some
        ⟨"a", "u", ⟨"sh", "linux", [], [], [], "img", ""⟩, "k", 2, 5,
          ResourceStatus.deploying, "", "", false⟩ else none,
      fun _ => none⟩
    "a"
    ⟨"a", "u", ⟨"sh", "linux", [], [], [], "img", ""⟩, "k", 2, 5,
      ResourceStatus.deploying, "", "", false⟩
    5 (by simp) rfl (by simp)).2.1
  simpa using h


theorem saveResources_result (s : RMState) (r : Resource) (dbOk : Bool) :
    (saveResources s r dbOk).result =
      if dbOk then Except.ok () else Except.error CrmError.storeError := by
  by_cases hdb : dbOk <;>
    by_cases hrel : r.status = ResourceStatus.released <;>
      simp [saveResources, hdb, hrel]

/-- C8: scaling a running, non-broker-backed resource with pool grant delta
and a successful operator call acquires the instances under the city-only
condition, asks ScaleServer for requestInstance + delta instances, and, when
delta is positive, records delta as the new noReadyInstance together with the
granted block key, moving the row to deploying. -/
theorem scale_nonbroker_success
    (s : RMState) (id user : String) (r : Resource) (delta : Int) (key : String)
    (o : ScaleOracle) (os : List ScaleOracle)
    (hrun : s.running = true) (hreg : s.registered id = some r) (hid : r.resourceID = id)
    (hst : r.status = ResourceStatus.running) (hbrk : r.brokerResourceID = "")
    (hfi : o.freeInstances = Except.ok (delta, key))
    (hsc : o.scaleOk = true) (hdb : o.dbOk = true) :
    (scale s id user (o :: os)).result = Except.ok () ∧
    Event.poolAcquire [(attributeKeyCity, r.param.city)] ∈ (scale s id user (o :: os)).events ∧
    Event.opScale user id (r.requestInstance + delta) ∈ (scale s id user (o :: os)).events ∧
    ∃ r', (scale s id user (o :: os)).state.registered id = some r' ∧
      r'.status = ResourceStatus.deploying ∧
      r'.requestInstance = r.requestInstance + delta ∧
      (0 < delta → r'.noReadyInstance = delta ∧ r'.resourceBlockKey = key) := by
  by_cases hdelta : (0 : Int) < delta
  · refine ⟨?_, ?_, ?_, ?_⟩
    · simp [scale, hrun, hreg, hst, hbrk, hfi, hsc, hdb, hdelta, saveResources_result]
    · simp [scale, hrun, hreg, hst, hbrk, hfi, hsc, hdb, hdelta, saveResources_events,
        saveResources_result]
    · simp [scale, hrun, hreg, hst, hbrk, hfi, hsc, hdb, hdelta, saveResources_events,
        saveResources_result]
    · refine ⟨({ r with noReadyInstance := delta, resourceBlockKey := key, requestInstance := r.requestInstance + delta, status := ResourceStatus.deploying } : Resource), ?_, rfl, rfl, fun _ => ⟨rfl, rfl⟩⟩
      simp [scale, hrun, hreg, hst, hbrk, hfi, hsc, hdb, hdelta]
      split
      · rename_i e heq
        rw [saveResources_result] at heq
        simp at heq
      · rw [saveResources_registered]
        simp [hid]
  · refine ⟨?_, ?_, ?_, ?_⟩
    · simp [scale, hrun, hreg, hst, hbrk, hfi, hsc, hdb, hdelta, saveResources_result]
    · simp [scale, hrun, hreg, hst, hbrk, hfi, hsc, hdb, hdelta, saveResources_events,
        saveResources_result]
    · simp [scale, hrun, hreg, hst, hbrk, hfi, hsc, hdb, hdelta, saveResources_events,
        saveResources_result]
    · refine ⟨({ r with requestInstance := r.requestInstance + delta, status := ResourceStatus.deploying } : Resource), ?_, rfl, rfl, fun hc => absurd hc hdelta⟩
      simp [scale, hrun, hreg, hst, hbrk, hfi, hsc, hdb, hdelta]
      split
      · rename_i e heq
        rw [saveResources_result] at heq
        simp at heq
      · rw [saveResources_registered]
        simp [hid]

/-- Witness for scale_nonbroker_success: a running row with 3 requested
instances scaled by a grant of 2 ends requesting 5, deploying, with 2 not
ready under block key k2. -/
theorem scale_nonbroker_success_witness :
    (scale
        ⟨true,
          fun id => if id = "a" then some
            ⟨"a", "u", ⟨"sh", "linux", [], [], [], "img", ""⟩, "k", 0, 3,
              ResourceStatus.running, "", "", false⟩ else none,
          fun _ => none⟩
        "a" "u" [⟨Except.ok (2, "k2"), true, true⟩]).result = Except.ok () := by
  exact (scale_nonbroker_success
    ⟨true,
      fun id => if id = "a" then some
        ⟨"a", "u", ⟨"sh", "linux", [], [], [], "img", ""⟩, "k", 0, 3,
          ResourceStatus.running, "", "", false⟩ else none,
      fun _ => none⟩
    "a" "u"
    ⟨"a", "u", ⟨"sh", "linux", [], [], [], "img", ""⟩, "k", 0, 3,
      ResourceStatus.running, "", "", false⟩
    2 "k2" ⟨Except.ok (2, "k2"), true, true⟩ []
    rfl (by simp) rfl rfl rfl rfl rfl rfl).1

theorem saveResources_inv (s : RMState) (r : Resource) (dbOk : Bool)
    (h : NoReleasedRegistered s) : NoReleasedRegistered (saveResources s r dbOk).state := by
  intro id x hx
  rw [saveResources_registered] at hx
  by_cases hid : id = r.resourceID
  · by_cases hrel : r.status = ResourceStatus.released
    · simp [hid, hrel] at hx
    · simp [hid, hrel] at hx
      subst hx
      exact hrel
  · simp [hid] at hx
    exact h id x hx

theorem init_inv (s : RMState) (id user : String) (param : ResourceParam) (dbOk : Bool)
    (h : NoReleasedRegistered s) : NoReleasedRegistered (init s id user param dbOk).state := by
  unfold init createResources
  repeat' split
  all_goals try exact h
  intro id' x hx
  simp [mapSet] at hx
  by_cases hq : id' = id
  · simp [hq] at hx
    subst hx
    simp
  · simp [hq] at hx
    exact h id' x hx

theorem launch_inv (s : RMState) (id user city : String) (useBroker confDCMac : Bool)
    (o : LaunchOracle) (h : NoReleasedRegistered s) :
    NoReleasedRegistered (launch s id user city useBroker confDCMac o).state := by
  simp only [launch]
  repeat' split
  all_goals first
    | exact h
    | exact saveResources_inv _ _ _ h

theorem fresh_inv (s : RMState) (id : String) (ready : Int) (terminated dbOk : Bool)
    (h : NoReleasedRegistered s) :
    NoReleasedRegistered (freshDeployingStatus s id ready terminated dbOk).state := by
  simp only [freshDeployingStatus]
  repeat' split
  all_goals first
    | exact h
    | exact saveResources_inv _ _ _ h

theorem scale_inv (user : String) :
    ∀ (os : List ScaleOracle) (id : String) (s : RMState),
      NoReleasedRegistered s → NoReleasedRegistered (scale s id user os).state := by
  intro os
  induction os with
  | nil =>
    intro id s h
    exact h
  | cons o rest ih =>
    intro id s h
    simp only [scale]
    repeat' split
    all_goals first
      | exact h
      | exact saveResources_inv _ _ _ h
      | exact saveResources_inv _ _ _ (ih _ _ h)
      | exact ih _ _ h

theorem release_inv (user : String) :
    ∀ (os : List ReleaseOracle) (id : String) (s : RMState),
      NoReleasedRegistered s → NoReleasedRegistered (release s id user os).state := by
  intro os
  induction os with
  | nil =>
    intro id s h
    exact h
  | cons o rest ih =>
    intro id s h
    simp only [release]
    repeat' split
    all_goals first
      | exact h
      | exact saveResources_inv _ _ _ h
      | exact saveResources_inv _ _ _ (ih _ _ h)
      | exact ih _ _ h

theorem getServiceInfo_inv (s : RMState) (id user : String) (o : GsiOracle)
    (h : NoReleasedRegistered s) :
    NoReleasedRegistered (getServiceInfo s id user o).state := by
  simp only [getServiceInfo]
  repeat' split
  all_goals first
    | exact h
    | exact fresh_inv _ _ _ _ _ h

/-- C3: on the non-broker path of launch and scale, an operator failure
(LaunchServer / ScaleServer), or a persistence failure after a successful
operator call, schedules a releaseNoReadyInstance compensation for the
just-reserved block key and instance count and returns the error to the
caller; an operator failure leaves the state untouched. -/
theorem launch_scale_compensate_on_failure
    (s : RMState) (id user city : String) (r : Resource)
    (hrun : s.running = true) (hreg : s.registered id = some r) :
    (∀ (useBroker : Bool) (o : LaunchOracle) (inst : Int) (key : String),
      r.status = ResourceStatus.init → o.brokerApply = none →
      o.freeInstances = Except.ok (inst, key) → o.launchOk = false →
      (launch s id user city useBroker false o).result = Except.error CrmError.operatorError ∧
      Event.releaseNoReady key inst ∈ (launch s id user city useBroker false o).events ∧
      (launch s id user city useBroker false o).state = s) ∧
    (∀ (useBroker : Bool) (o : LaunchOracle) (inst : Int) (key : String),
      r.status = ResourceStatus.init → o.brokerApply = none →
      o.freeInstances = Except.ok (inst, key) → o.launchOk = true → o.dbOk = false →
      (launch s id user city useBroker false o).result = Except.error CrmError.storeError ∧
      Event.releaseNoReady key inst ∈ (launch s id user city useBroker false o).events) ∧
    (∀ (o : ScaleOracle) (os : List ScaleOracle) (delta : Int) (key : String),
      r.status = ResourceStatus.running → r.brokerResourceID = "" →
      o.freeInstances = Except.ok (delta, key) → 0 < delta → o.scaleOk = false →
      (scale s id user (o :: os)).result = Except.error CrmError.operatorError ∧
      Event.releaseNoReady key delta ∈ (scale s id user (o :: os)).events ∧
      (scale s id user (o :: os)).state = s) ∧
    (∀ (o : ScaleOracle) (os : List ScaleOracle) (delta : Int) (key : String),
      r.status = ResourceStatus.running → r.brokerResourceID = "" →
      o.freeInstances = Except.ok (delta, key) → 0 < delta → o.scaleOk = true →
      o.dbOk = false →
      (scale s id user (o :: os)).result = Except.error CrmError.storeError ∧
      Event.releaseNoReady key delta ∈ (scale s id user (o :: os)).events) := by
  refine ⟨?_, ?_, ?_, ?_⟩
  · intro useBroker o inst key hst happly hfi hlk
    refine ⟨?_, ?_, ?_⟩ <;>
      simp [launch, hrun, hreg, hst, happly, hfi, hlk]
  · intro useBroker o inst key hst happly hfi hlk hdb
    refine ⟨?_, ?_⟩ <;>
      simp [launch, hrun, hreg, hst, happly, hfi, hlk, hdb, saveResources_events,
        saveResources_result]
  · intro o os delta key hst hbrk hfi hdelta hsc
    refine ⟨?_, ?_, ?_⟩ <;>
      simp [scale, hrun, hreg, hst, hbrk, hfi, hdelta, hsc]
  · intro o os delta key hst hbrk hfi hdelta hsc hdb
    refine ⟨?_, ?_⟩ <;>
      simp [scale, hrun, hreg, hst, hbrk, hfi, hdelta, hsc, hdb, saveResources_events,
        saveResources_result]

/-- Witness for launch_scale_compensate_on_failure: a failed LaunchServer on
a freshly reserved block k with 3 instances schedules their release. -/
theorem launch_scale_compensate_on_failure_witness :
    Event.releaseNoReady "k" 3 ∈
      (launch
        ⟨true,
          fun id => if id = "a" then some
            ⟨"a", "u", ⟨"sh", "linux", [], [], [], "img", ""⟩, "", 0, 0,
              ResourceStatus.init, "", "", false⟩ else none,
          fun _ => none⟩
        "a" "u" "" false false
        ⟨none, Except.ok (3, "k"), false, true⟩).events :=
  ((launch_scale_compensate_on_failure
    ⟨true,
      fun id => if id = "a" then some
        ⟨"a", "u", ⟨"sh", "linux", [], [], [], "img", ""⟩, "", 0, 0,
          ResourceStatus.init, "", "", false⟩ else none,
      fun _ => none⟩
    "a" "u" ""
    ⟨"a", "u", ⟨"sh", "linux", [], [], [], "img", ""⟩, "", 0, 0,
      ResourceStatus.init, "", "", false⟩
    rfl (by simp)).1 false ⟨none, Except.ok (3, "k"), false, true⟩ 3 "k"
    rfl rfl rfl rfl).2.1

theorem isServicePreparing_state (s : RMState) (id user : String) :
    (isServicePreparing s id user).state = s := by
  simp only [isServicePreparing]
  repeat' split
  all_goals rfl

/-- C7: saveResources evicts from the in-memory map every released row it is
handed, and the invariant that no released row is registered in memory is
preserved by every operation of the manager. -/
theorem released_never_registered
    (s : RMState) (h : NoReleasedRegistered s) :
    (∀ (r : Resource) (dbOk : Bool), r.status = ResourceStatus.released →
      (saveResources s r dbOk).state.registered r.resourceID = none) ∧
    (∀ id user param dbOk, NoReleasedRegistered (init s id user param dbOk).state) ∧
    (∀ id user city useBroker confDCMac o,
      NoReleasedRegistered (launch s id user city useBroker confDCMac o).state) ∧
    (∀ id user os, NoReleasedRegistered (scale s id user os).state) ∧
    (∀ id user os, NoReleasedRegistered (release s id user os).state) ∧
    (∀ id ready terminated dbOk,
      NoReleasedRegistered (freshDeployingStatus s id ready terminated dbOk).state) ∧
    (∀ id user o, NoReleasedRegistered (getServiceInfo s id user o).state) ∧
    (∀ id user, NoReleasedRegistered (isServicePreparing s id user).state) := by
  refine ⟨?_, ?_, ?_, ?_, ?_, ?_, ?_, ?_⟩
  · intro r dbOk hrel
    rw [saveResources_registered]
    simp [hrel]
  · intro id user param dbOk
    exact init_inv s id user param dbOk h
  · intro id user city useBroker confDCMac o
    exact launch_inv s id user city useBroker confDCMac o h
  · intro id user os
    exact scale_inv user os id s h
  · intro id user os
    exact release_inv user os id s h
  · intro id ready terminated dbOk
    exact fresh_inv s id ready terminated dbOk h
  · intro id user o
    exact getServiceInfo_inv s id user o h
  · intro id user
    rw [isServicePreparing_state]
    exact h

/-- Witness for released_never_registered: persisting a released row over an
empty running state leaves the map without that row. -/
theorem released_never_registered_witness :
    (saveResources ⟨true, fun _ => none, fun _ => none⟩
        ⟨"a", "u", ⟨"", "", [], [], [], "", ""⟩, "", 0, 0,
          ResourceStatus.released, "", "", false⟩ true).state.registered "a" = none :=
  (released_never_registered ⟨true, fun _ => none, fun _ => none⟩
    (fun _ _ hx => Option.noConfusion hx)).1
    ⟨"a", "u", ⟨"", "", [], [], [], "", ""⟩, "", 0, 0,
      ResourceStatus.released, "", "", false⟩ true rfl

theorem launch_atomic (s : RMState) (id user city : String) (useBroker confDCMac : Bool)
    (o : LaunchOracle) :
    isErr (launch s id user city useBroker confDCMac o).result = true →
    noSave (launch s id user city useBroker confDCMac o).events = true →
    (launch s id user city useBroker confDCMac o).state = s := by
  simp only [launch]
  repeat' split
  all_goals intro h1 h2
  all_goals first
    | rfl
    | simp [noSave, saveResources_events, isSaveEv] at h2

theorem scale_atomic (user : String) :
    ∀ (os : List ScaleOracle) (id : String) (s : RMState),
      isErr (scale s id user os).result = true →
      noSave (scale s id user os).events = true →
      (scale s id user os).state = s := by
  intro os
  induction os with
  | nil =>
    intro id s h1 h2
    rfl
  | cons o rest ih =>
    intro id s
    simp only [scale]
    repeat' split
    all_goals intro h1 h2
    all_goals first
      | rfl
      | exact ih _ _ (by simp_all [isErr]) h2
      | simp [noSave, saveResources_events, isSaveEv] at h2

theorem release_atomic (user : String) :
    ∀ (os : List ReleaseOracle) (id : String) (s : RMState),
      isErr (release s id user os).result = true →
      noSave (release s id user os).events = true →
      (release s id user os).state = s := by
  intro os
  induction os with
  | nil =>
    intro id s h1 h2
    rfl
  | cons o rest ih =>
    intro id s
    simp only [release]
    repeat' split
    all_goals intro h1 h2
    all_goals first
      | rfl
      | exact ih _ _ (by simp_all [isErr]) h2
      | simp [noSave, saveResources_events, isSaveEv] at h2

/-- C10: getResources hands out a value copy of the registered row, and any
launch, scale or release that returns an error without having attempted a
database write (every precondition violation, pool failure and operator
failure) leaves the in-memory registered map and the store exactly as they
were; freshDeployingStatus on an unknown id changes nothing at all. -/
theorem error_before_save_is_atomic
    (s : RMState) (user : String) :
    (∀ id r, s.registered id = some r → getResources s id = Except.ok r) ∧
    (∀ id city useBroker confDCMac o,
      isErr (launch s id user city useBroker confDCMac o).result = true →
      noSave (launch s id user city useBroker confDCMac o).events = true →
      (launch s id user city useBroker confDCMac o).state = s) ∧
    (∀ os id, isErr (scale s id user os).result = true →
      noSave (scale s id user os).events = true →
      (scale s id user os).state = s) ∧
    (∀ os id, isErr (release s id user os).result = true →
      noSave (release s id user os).events = true →
      (release s id user os).state = s) ∧
    (∀ id ready terminated dbOk, s.registered id = none →
      freshDeployingStatus s id ready terminated dbOk = ⟨s, [], Except.ok ()⟩) := by
  refine ⟨?_, ?_, ?_, ?_, ?_⟩
  · intro id r hreg
    simp [getResources, hreg]
  · intro id city useBroker confDCMac o
    exact launch_atomic s id user city useBroker confDCMac o
  · intro os id
    exact scale_atomic user os id s
  · intro os id
    exact release_atomic user os id s
  · intro id ready terminated dbOk hreg
    simp [freshDeployingStatus, hreg]

/-- Witness for error_before_save_is_atomic: a launch refused for a
non-registered id leaves the concrete state unchanged. -/
theorem error_before_save_is_atomic_witness :
    (launch ⟨true, fun _ => none, fun _ => none⟩ "a" "u" "" false false
        ⟨none, Except.error CrmError.noEnoughResources, true, true⟩).state =
      ⟨true, fun _ => none, fun _ => none⟩ :=
  (error_before_save_is_atomic ⟨true, fun _ => none, fun _ => none⟩ "u").2.1
    "a" "" false false ⟨none, Except.error CrmError.noEnoughResources, true, true⟩
    rfl rfl

end Crm
